import Mathlib

/-!
Shallow embedding of `src/app.py` (Hawaii climate Flask service).

Modelling conventions:
* Dates are stored as ISO `YYYY-MM-DD` strings in the sqlite store; the spec
  invariant says they are well-formed and compare lexicographically exactly as
  they compare chronologically, so we embed a date as its day number (`Nat`).
  `datetime.strptime` on a well-formed date is then the identity; applied to
  `None` (SQL `MAX` over an empty table) it raises, which we model as the
  handler producing no response.
* Numeric columns (`prcp`, `tobs`, SQL `AVG`) are embedded as `ℚ`; `prcp` is
  nullable, hence `Option ℚ`.
* The store is the fixed snapshot a request sees: the row list of the
  `station` table (its `station` codes, in store-returned order) and the row
  list of the `measurement` table, in store-returned order.
* Each Flask handler becomes a function `Store → HandlerResult α`:
  `resp = none` models an uncaught Python exception escaping the handler
  (no JSON response is produced), and `sessionClosed` records whether
  `session.close()` was executed on that control path.
* Python `round(x, 2)` is banker's rounding (ties to even) at two decimal
  places, embedded exactly on `ℚ` as `pyRound2`.
-/

/-- One row of the `measurement` table: station code, date (day number for the
ISO date string), nullable precipitation, temperature observation. -/
structure Measurement where
  station : String
  date : Nat
  prcp : Option ℚ
  tobs : ℚ
deriving DecidableEq, Repr

/-- A fixed store snapshot: the `station` table (codes, store order) and the
`measurement` table (rows, store order). -/
structure Store where
  stations : List String
  measurements : List Measurement
deriving DecidableEq, Repr

/-- Outcome of running one Flask handler: the response body (`none` when an
uncaught exception escapes before `jsonify`), and whether `session.close()`
ran on that control path. -/
structure HandlerResult (α : Type) where
  resp : Option α
  sessionClosed : Bool
deriving Repr

/-- SQL `MAX(date)` over a row list: `NULL` (`none`) on an empty list. -/
def maxDate : List Measurement → Option Nat
  | [] => none
  | m :: ms =>
    match maxDate ms with
    | none => some m.date
    | some d => some (max m.date d)

/-- SQL `MIN(tobs)` over the selected temperatures: `NULL` on an empty set. -/
def aggMin : List ℚ → Option ℚ
  | [] => none
  | t :: ts =>
    match aggMin ts with
    | none => some t
    | some m => some (min t m)

/-- SQL `MAX(tobs)` over the selected temperatures: `NULL` on an empty set. -/
def aggMax : List ℚ → Option ℚ
  | [] => none
  | t :: ts =>
    match aggMax ts with
    | none => some t
    | some m => some (max t m)

/-- Arithmetic mean of a list of rationals (meaningful only when nonempty). -/
def avgList (l : List ℚ) : ℚ := l.sum / l.length

/-- SQL `AVG(tobs)`: `NULL` on an empty set, the mean otherwise. -/
def aggAvg (l : List ℚ) : Option ℚ :=
  if l.isEmpty then none else some (avgList l)

/-- Round a rational to the nearest integer, ties to even (Python `round`). -/
def roundHalfEven (q : ℚ) : ℤ :=
  if q - ⌊q⌋ < 1/2 then ⌊q⌋
  else if 1/2 < q - ⌊q⌋ then ⌊q⌋ + 1
  else if ⌊q⌋ % 2 = 0 then ⌊q⌋ else ⌊q⌋ + 1

/-- Python `round(q, 2)`: banker's rounding at two decimal places. -/
def pyRound2 (q : ℚ) : ℚ := (roundHalfEven (q * 100) : ℚ) / 100

/-- One update of a Python `dict` under construction: overwrite in place when
the key is present, append otherwise (insertion order preserved; keys built
this way stay unique, so replacing the first occurrence is replacing the
occurrence). -/
def dictUpd : List (Nat × Option ℚ) → Nat → Option ℚ → List (Nat × Option ℚ)
  | [], k, v => [(k, v)]
  | p :: ps, k, v => if p.1 = k then (k, v) :: ps else p :: dictUpd ps k v

/-- The Python dict comprehension `\x7bdate: prcp for date, prcp in rows\x7d`:
fold the pairs into a dict, later pairs overwriting earlier ones. -/
def dictOf (ps : List (Nat × Option ℚ)) : List (Nat × Option ℚ) :=
  ps.foldl (fun d p => dictUpd d p.1 p.2) []

/-- Handler of `/api/v1.0/precipitation`: store-wide `MAX(date)`, cutoff one
year (365 days) back, fetch `(date, prcp)` for `date >= cutoff`, build the
dict. `strptime(None, ...)` on an empty measurement table raises before
`session.close()`. -/
def precipitationH (s : Store) : HandlerResult (List (Nat × Option ℚ)) :=
  match maxDate s.measurements with
  | none => ⟨none, false⟩
  | some recent =>
    let last_year_date : Int := (recent : Int) - 365
    let data_last_year := s.measurements.filter
      (fun m => decide (last_year_date ≤ (m.date : Int)))
    ⟨some (dictOf (data_last_year.map (fun m => (m.date, m.prcp)))), true⟩

/-- Handler of `/api/v1.0/stations`: fetch every station code, in store
order; no failure path between open and close. -/
def all_stationsH (s : Store) : HandlerResult (List String) :=
  ⟨some s.stations, true⟩

/-- The `GROUP BY station` with `COUNT(station)`: one pair per distinct
station code (group order: first occurrence), with its row count. -/
def groupCounts (ms : List Measurement) : List (String × Nat) :=
  ((ms.map Measurement.station).dedup).map
    (fun st => (st, (ms.filter (fun m => m.station == st)).length))

/-- Insert one station-count pair into a count-descending list, keeping it
descending (stable: equal counts keep earlier entries first). -/
def insertDesc (p : String × Nat) : List (String × Nat) → List (String × Nat)
  | [] => [p]
  | q :: qs => if q.2 < p.2 then p :: q :: qs else q :: insertDesc p qs

/-- The `ORDER BY COUNT(...) DESC` applied to the grouped counts: a sort that
is descending in the count, one deterministic store-returned order. -/
def sortDesc : List (String × Nat) → List (String × Nat)
  | [] => []
  | p :: ps => insertDesc p (sortDesc ps)

/-- Handler of `/api/v1.0/tobs`: group-count stations, order descending,
take the first (raises `IndexError` on an empty table), take that station's
`MAX(date)`, cutoff 365 days back, fetch its `(date, tobs)` rows in order. -/
def tobsH (s : Store) : HandlerResult (List (Nat × ℚ)) :=
  match sortDesc (groupCounts s.measurements) with
  | [] => ⟨none, false⟩
  | (most_active_station_id, _) :: _ =>
    match maxDate (s.measurements.filter
        (fun m => m.station == most_active_station_id)) with
    | none => ⟨none, false⟩
    | some most_recent_date =>
      let last_year_date : Int := (most_recent_date : Int) - 365
      let temperature_data := s.measurements.filter
        (fun m => m.station == most_active_station_id &&
          decide (last_year_date ≤ (m.date : Int)))
      ⟨some (temperature_data.map (fun m => (m.date, m.tobs))), true⟩

/-- Response of `/api/v1.0/start/<start>`: the JSON object
`\x7bmin, avg, max, start\x7d`. -/
structure StartResp where
  min : Option ℚ
  avg : ℚ
  max : Option ℚ
  start : Nat
deriving DecidableEq, Repr

/-- Response of `/api/v1.0/end/<start>/<end>`: the JSON object
`\x7bmin, avg, max, start, end\x7d`. -/
structure StartEndResp where
  min : Option ℚ
  avg : ℚ
  max : Option ℚ
  start : Nat
  end_ : Nat
deriving DecidableEq, Repr

/-- Handler of `/api/v1.0/start/<start>`: aggregate `MIN/AVG/MAX(tobs)` over
`date >= start`; `session.close()` runs before result shaping, then
`round(avg, 2)` raises `TypeError` when the aggregate row is all `NULL`
(empty match). -/
def start_dateH (s : Store) (start : Nat) : HandlerResult StartResp :=
  let ts := (s.measurements.filter (fun m => decide (start ≤ m.date))).map
    Measurement.tobs
  match aggAvg ts with
  | none => ⟨none, true⟩
  | some a => ⟨some ⟨aggMin ts, pyRound2 a, aggMax ts, start⟩, true⟩

/-- Handler of `/api/v1.0/end/<start>/<end>`: aggregate `MIN/AVG/MAX(tobs)`
over `start <= date <= end` (both bounds inclusive); same shaping and same
`round(None, 2)` failure on an empty match as the start handler. -/
def start_end_dateH (s : Store) (start e : Nat) : HandlerResult StartEndResp :=
  let ts := (s.measurements.filter
    (fun m => decide (start ≤ m.date) && decide (m.date ≤ e))).map
    Measurement.tobs
  match aggAvg ts with
  | none => ⟨none, true⟩
  | some a => ⟨some ⟨aggMin ts, pyRound2 a, aggMax ts, start, e⟩, true⟩

/-- The static document returned by the root route (verbatim from the
source, a Python triple-quoted string). -/
def homepageHtml : String :=
  "\n        <h1>Hawaii Climate Analysis</h1>\n        <hr/>\n        <h2> Available Routes </h2>\n        <ul>\n            <li><a href=\"/\">Homepage</a></li>\n            <li><a href=\"/api/v1.0/precipitation\">Precipitation</a></li>\n            <li><a href=\"/api/v1.0/stations\">All Stations</a></li>\n            <li><a href=\"/api/v1.0/tobs\">Temperature observations for the most active station</a></li>\n            <li><a href=\"/api/v1.0/start/2017-01-01\">Calculate min, avg, and max temperatures for the dates from the start date to the end of the dataset</a></li>\n            <li><a href=\"/api/v1.0/end/2016-01-01/2017-12-12\">Calculate min, avg, and max temperatures for the dates from the start date to the end date, inclusive.</a></li>\n        </ul>\n    "

/-- Handler of the root route, with the store state threaded through to make
the absence of store access and side effects expressible: it returns the
static document and the store unchanged. -/
def homepageH (s : Store) : String × Store := (homepageHtml, s)

/-- The most-active-station selection inside the tobs handler: the first
entry of the descending-count list, when one exists. -/
def mostActiveStation (s : Store) : Option String :=
  (sortDesc (groupCounts s.measurements)).head?.map Prod.fst

/-! ## Dictionary lemmas -/

lemma lookup_dictUpd (d : List (Nat × Option ℚ)) (k : Nat) (v : Option ℚ)
    (a : Nat) :
    List.lookup a (dictUpd d k v) = if a = k then some v else List.lookup a d := by
  induction d with
  | nil =>
    by_cases h : a = k
    · have hb : (a == k) = true := beq_iff_eq.mpr h
      simp [dictUpd, List.lookup_cons, hb, h]
    · have hb : (a == k) = false := beq_eq_false_iff_ne.mpr h
      simp [dictUpd, List.lookup_cons, hb, h]
  | cons p ps ih =>
    obtain ⟨k', v'⟩ := p
    by_cases hp : k' = k
    · subst hp
      by_cases h : a = k'
      · have hb : (a == k') = true := beq_iff_eq.mpr h
        simp [dictUpd, List.lookup_cons, hb, h]
      · have hb : (a == k') = false := beq_eq_false_iff_ne.mpr h
        simp [dictUpd, List.lookup_cons, hb, h]
    · by_cases h : a = k'
      · have hb : (a == k') = true := beq_iff_eq.mpr h
        have hak : ¬a = k := fun hc => hp (h.symm.trans hc)
        simp [dictUpd, hp, List.lookup_cons, hb, hak]
      · have hb : (a == k') = false := beq_eq_false_iff_ne.mpr h
        simp [dictUpd, hp, List.lookup_cons, hb, ih]

lemma keys_dictUpd (d : List (Nat × Option ℚ)) (k : Nat) (v : Option ℚ)
    (a : Nat) :
    a ∈ (dictUpd d k v).map Prod.fst ↔ a = k ∨ a ∈ d.map Prod.fst := by
  induction d with
  | nil => simp [dictUpd]
  | cons p ps ih =>
    by_cases hp : p.1 = k
    · simp [dictUpd, hp]
    · simp [dictUpd, hp, ih]
      tauto

lemma dictOf_append_single (ps : List (Nat × Option ℚ)) (p : Nat × Option ℚ) :
    dictOf (ps ++ [p]) = dictUpd (dictOf ps) p.1 p.2 := by
  simp [dictOf, List.foldl_append]

lemma lookup_dictOf (ps : List (Nat × Option ℚ)) (a : Nat) :
    List.lookup a (dictOf ps) =
      (ps.reverse.find? (fun p => p.1 == a)).map Prod.snd := by
  induction ps using List.reverseRecOn with
  | nil => rfl
  | append_singleton ps p ih =>
    rw [dictOf_append_single, lookup_dictUpd, List.reverse_append]
    by_cases h : a = p.1
    · simp [List.find?_cons, h]
    · have hb : (p.1 == a) = false := by
        simp [Ne.symm h]
      simp [List.find?_cons, h, hb, ih]

lemma keys_dictOf (ps : List (Nat × Option ℚ)) (a : Nat) :
    a ∈ (dictOf ps).map Prod.fst ↔ a ∈ ps.map Prod.fst := by
  induction ps using List.reverseRecOn with
  | nil => simp [dictOf]
  | append_singleton ps p ih =>
    rw [dictOf_append_single, keys_dictUpd, ih]
    simp [or_comm]

/-! ## MAX(date) lemmas -/

lemma maxDate_eq_none_iff (l : List Measurement) :
    maxDate l = none ↔ l = [] := by
  cases l with
  | nil => simp [maxDate]
  | cons m ms =>
    cases h : maxDate ms <;> simp [maxDate, h]

lemma maxDate_isSome (l : List Measurement) (h : l ≠ []) :
    ∃ d, maxDate l = some d := by
  cases hm : maxDate l with
  | none => exact absurd ((maxDate_eq_none_iff l).mp hm) h
  | some d => exact ⟨d, rfl⟩

lemma maxDate_le (l : List Measurement) (d : Nat) (h : maxDate l = some d) :
    ∀ m ∈ l, m.date ≤ d := by
  induction l generalizing d with
  | nil => simp
  | cons m ms ih =>
    intro x hx
    cases hm : maxDate ms with
    | none =>
      rw [maxDate, hm] at h
      have hms : ms = [] := (maxDate_eq_none_iff ms).mp hm
      subst hms
      simp at hx
      subst hx
      simp at h
      omega
    | some d' =>
      rw [maxDate, hm] at h
      simp at h
      rcases List.mem_cons.mp hx with h1 | h2
      · subst h1
        omega
      · have := ih d' hm x h2
        omega

lemma maxDate_mem (l : List Measurement) (d : Nat) (h : maxDate l = some d) :
    ∃ m ∈ l, m.date = d := by
  induction l generalizing d with
  | nil => simp [maxDate] at h
  | cons m ms ih =>
    cases hm : maxDate ms with
    | none =>
      rw [maxDate, hm] at h
      simp at h
      exact ⟨m, List.mem_cons_self m ms, by omega⟩
    | some d' =>
      rw [maxDate, hm] at h
      simp at h
      rcases max_choice m.date d' with hc | hc
      · refine ⟨m, List.mem_cons_self m ms, ?_⟩
        omega
      · obtain ⟨x, hx, hxd⟩ := ih d' hm
        refine ⟨x, List.mem_cons_of_mem m hx, ?_⟩
        omega

/-! ## Descending-count sort lemmas -/

lemma mem_insertDesc (p q : String × Nat) (l : List (String × Nat)) :
    q ∈ insertDesc p l ↔ q = p ∨ q ∈ l := by
  induction l with
  | nil => simp [insertDesc]
  | cons r rs ih =>
    by_cases h : r.2 < p.2
    · simp [insertDesc, h]
    · simp [insertDesc, h, ih]
      tauto

lemma mem_sortDesc (q : String × Nat) (l : List (String × Nat)) :
    q ∈ sortDesc l ↔ q ∈ l := by
  induction l with
  | nil => simp [sortDesc]
  | cons p ps ih =>
    simp [sortDesc, mem_insertDesc, ih]

lemma insertDesc_ne_nil (p : String × Nat) (l : List (String × Nat)) :
    insertDesc p l ≠ [] := by
  cases l with
  | nil => simp [insertDesc]
  | cons r rs =>
    by_cases h : r.2 < p.2 <;> simp [insertDesc, h]

lemma sortDesc_eq_nil_iff (l : List (String × Nat)) :
    sortDesc l = [] ↔ l = [] := by
  cases l with
  | nil => simp [sortDesc]
  | cons p ps =>
    simp [sortDesc, insertDesc_ne_nil]

lemma pairwise_insertDesc (p : String × Nat) (l : List (String × Nat))
    (h : l.Pairwise (fun a b => b.2 ≤ a.2)) :
    (insertDesc p l).Pairwise (fun a b => b.2 ≤ a.2) := by
  induction l with
  | nil => simp [insertDesc]
  | cons r rs ih =>
    rw [List.pairwise_cons] at h
    by_cases hlt : r.2 < p.2
    · rw [insertDesc]
      simp only [hlt, if_true]
      rw [List.pairwise_cons]
      refine ⟨?_, List.pairwise_cons.mpr h⟩
      intro x hx
      rcases List.mem_cons.mp hx with h1 | h2
      · subst h1
        omega
      · have := h.1 x h2
        omega
    · rw [insertDesc]
      simp only [hlt, if_false]
      rw [List.pairwise_cons]
      refine ⟨?_, ih h.2⟩
      intro x hx
      rcases (mem_insertDesc p x rs).mp hx with h1 | h2
      · subst h1
        omega
      · exact h.1 x h2

lemma pairwise_sortDesc (l : List (String × Nat)) :
    (sortDesc l).Pairwise (fun a b => b.2 ≤ a.2) := by
  induction l with
  | nil => simp [sortDesc]
  | cons p ps ih =>
    exact pairwise_insertDesc p (sortDesc ps) ih

lemma sortDesc_head_count_max (l : List (String × Nat)) (p : String × Nat)
    (rest : List (String × Nat)) (h : sortDesc l = p :: rest) :
    ∀ q ∈ l, q.2 ≤ p.2 := by
  intro q hq
  have hq2 : q ∈ sortDesc l := (mem_sortDesc q l).mpr hq
  rw [h] at hq2
  rcases List.mem_cons.mp hq2 with h1 | h2
  · subst h1
    exact le_refl _
  · have hp := pairwise_sortDesc l
    rw [h, List.pairwise_cons] at hp
    exact hp.1 q h2

/-! ## Group-count lemmas -/

lemma mem_groupCounts (ms : List Measurement) (st : String) (c : Nat) :
    (st, c) ∈ groupCounts ms ↔
      st ∈ (ms.map Measurement.station).dedup ∧
        c = (ms.filter (fun m => m.station == st)).length := by
  simp only [groupCounts, List.mem_map, Prod.mk.injEq]
  constructor
  · rintro ⟨x, hx, rfl, rfl⟩
    exact ⟨hx, rfl⟩
  · rintro ⟨hst, rfl⟩
    exact ⟨st, hst, rfl, rfl⟩

lemma groupCounts_eq_nil_iff (ms : List Measurement) :
    groupCounts ms = [] ↔ ms = [] := by
  simp [groupCounts, List.dedup_eq_nil]

lemma exists_measurement_of_mem_dedup (ms : List Measurement) (st : String)
    (h : st ∈ (ms.map Measurement.station).dedup) :
    ∃ m ∈ ms, m.station = st := by
  rw [List.mem_dedup, List.mem_map] at h
  exact h

lemma count_le_of_sortDesc_head (ms : List Measurement) (s0 : String)
    (c0 : Nat) (rest : List (String × Nat))
    (h : sortDesc (groupCounts ms) = (s0, c0) :: rest) (st : String) :
    (ms.filter (fun m => m.station == st)).length ≤ c0 := by
  by_cases hst : st ∈ (ms.map Measurement.station).dedup
  · have hmem : (st, (ms.filter (fun m => m.station == st)).length) ∈
        groupCounts ms := (mem_groupCounts ms st _).mpr ⟨hst, rfl⟩
    exact sortDesc_head_count_max _ _ _ h _ hmem
  · have : ms.filter (fun m => m.station == st) = [] := by
      rw [List.filter_eq_nil_iff]
      intro m hm
      simp only [beq_iff_eq]
      intro hc
      exact hst (List.mem_dedup.mpr (List.mem_map.mpr ⟨m, hm, hc⟩))
    simp [this]

/-! ## Aggregate lemmas -/

lemma aggMin_eq_none_iff (l : List ℚ) : aggMin l = none ↔ l = [] := by
  cases l with
  | nil => simp [aggMin]
  | cons t ts =>
    cases h : aggMin ts <;> simp [aggMin, h]

lemma aggMax_eq_none_iff (l : List ℚ) : aggMax l = none ↔ l = [] := by
  cases l with
  | nil => simp [aggMax]
  | cons t ts =>
    cases h : aggMax ts <;> simp [aggMax, h]

lemma aggMin_le (l : List ℚ) (mn : ℚ) (h : aggMin l = some mn) :
    ∀ x ∈ l, mn ≤ x := by
  induction l generalizing mn with
  | nil => simp [aggMin] at h
  | cons t ts ih =>
    intro x hx
    cases hm : aggMin ts with
    | none =>
      have hts : ts = [] := (aggMin_eq_none_iff ts).mp hm
      subst hts
      rw [aggMin, hm] at h
      simp at h hx
      rw [hx, ← h]
    | some m =>
      rw [aggMin, hm] at h
      simp at h
      rcases List.mem_cons.mp hx with h1 | h2
      · rw [h1, ← h]
        exact min_le_left t m
      · calc mn ≤ m := by rw [← h]; exact min_le_right t m
          _ ≤ x := ih m hm x h2

lemma le_aggMax (l : List ℚ) (mx : ℚ) (h : aggMax l = some mx) :
    ∀ x ∈ l, x ≤ mx := by
  induction l generalizing mx with
  | nil => simp [aggMax] at h
  | cons t ts ih =>
    intro x hx
    cases hm : aggMax ts with
    | none =>
      have hts : ts = [] := (aggMax_eq_none_iff ts).mp hm
      subst hts
      rw [aggMax, hm] at h
      simp at h hx
      rw [hx, ← h]
    | some m =>
      rw [aggMax, hm] at h
      simp at h
      rcases List.mem_cons.mp hx with h1 | h2
      · rw [h1, ← h]
        exact le_max_left t m
      · calc x ≤ m := ih m hm x h2
          _ ≤ mx := by rw [← h]; exact le_max_right t m

lemma mul_length_le_sum (l : List ℚ) (c : ℚ) (h : ∀ x ∈ l, c ≤ x) :
    c * l.length ≤ l.sum := by
  induction l with
  | nil => simp
  | cons t ts ih =>
    have h1 : c ≤ t := h t (List.mem_cons_self t ts)
    have h2 : c * ts.length ≤ ts.sum := ih (fun x hx => h x (List.mem_cons_of_mem t hx))
    simp only [List.sum_cons, List.length_cons]
    push_cast
    nlinarith

lemma sum_le_mul_length (l : List ℚ) (c : ℚ) (h : ∀ x ∈ l, x ≤ c) :
    l.sum ≤ c * l.length := by
  induction l with
  | nil => simp
  | cons t ts ih =>
    have h1 : t ≤ c := h t (List.mem_cons_self t ts)
    have h2 : ts.sum ≤ c * ts.length := ih (fun x hx => h x (List.mem_cons_of_mem t hx))
    simp only [List.sum_cons, List.length_cons]
    push_cast
    nlinarith

lemma le_avgList (l : List ℚ) (c : ℚ) (hne : l ≠ []) (h : ∀ x ∈ l, c ≤ x) :
    c ≤ avgList l := by
  have hlen : 0 < (l.length : ℚ) := by
    have := List.length_pos.mpr hne
    exact_mod_cast this
  rw [avgList, le_div_iff₀ hlen]
  exact mul_length_le_sum l c h

lemma avgList_le (l : List ℚ) (c : ℚ) (hne : l ≠ []) (h : ∀ x ∈ l, x ≤ c) :
    avgList l ≤ c := by
  have hlen : 0 < (l.length : ℚ) := by
    have := List.length_pos.mpr hne
    exact_mod_cast this
  rw [avgList, div_le_iff₀ hlen]
  exact sum_le_mul_length l c h

/-! ## Handler characterizations -/

lemma precipitationH_eq (s : Store) (recent : Nat)
    (h : maxDate s.measurements = some recent) :
    precipitationH s =
      ⟨some (dictOf ((s.measurements.filter
          (fun m => decide ((recent : Int) - 365 ≤ (m.date : Int)))).map
          (fun m => (m.date, m.prcp)))), true⟩ := by
  unfold precipitationH
  rw [h]

lemma tobsH_eq (s : Store) (s0 : String) (c0 : Nat)
    (rest : List (String × Nat)) (recent : Nat)
    (h1 : sortDesc (groupCounts s.measurements) = (s0, c0) :: rest)
    (h2 : maxDate (s.measurements.filter (fun m => m.station == s0)) =
      some recent) :
    tobsH s =
      ⟨some ((s.measurements.filter
          (fun m => m.station == s0 &&
            decide ((recent : Int) - 365 ≤ (m.date : Int)))).map
          (fun m => (m.date, m.tobs))), true⟩ := by
  simp only [tobsH, h1, h2]

lemma tobsH_spec (s : Store) (h : s.measurements ≠ []) :
    ∃ s0 c0 rest recent,
      sortDesc (groupCounts s.measurements) = (s0, c0) :: rest ∧
      c0 = (s.measurements.filter (fun m => m.station == s0)).length ∧
      (∀ st : String,
        (s.measurements.filter (fun m => m.station == st)).length ≤ c0) ∧
      maxDate (s.measurements.filter (fun m => m.station == s0)) =
        some recent ∧
      tobsH s =
        ⟨some ((s.measurements.filter
            (fun m => m.station == s0 &&
              decide ((recent : Int) - 365 ≤ (m.date : Int)))).map
            (fun m => (m.date, m.tobs))), true⟩ := by
  have hg : groupCounts s.measurements ≠ [] :=
    fun hc => h ((groupCounts_eq_nil_iff _).mp hc)
  have hs : sortDesc (groupCounts s.measurements) ≠ [] :=
    fun hc => hg ((sortDesc_eq_nil_iff _).mp hc)
  cases hsd : sortDesc (groupCounts s.measurements) with
  | nil => exact absurd hsd hs
  | cons p rest =>
    obtain ⟨s0, c0⟩ := p
    have hmem : (s0, c0) ∈ groupCounts s.measurements :=
      (mem_sortDesc _ _).mp (hsd ▸ List.mem_cons_self _ _)
    obtain ⟨hdedup, hc0⟩ := (mem_groupCounts _ _ _).mp hmem
    obtain ⟨m0, hm0, hm0st⟩ := exists_measurement_of_mem_dedup _ _ hdedup
    have hfil : s.measurements.filter (fun m => m.station == s0) ≠ [] := by
      intro hc
      have := List.filter_eq_nil_iff.mp hc m0 hm0
      simp [hm0st] at this
    obtain ⟨recent, hrec⟩ := maxDate_isSome _ hfil
    exact ⟨s0, c0, rest, recent, rfl, hc0,
      fun st => count_le_of_sortDesc_head _ _ _ _ hsd st, hrec,
      tobsH_eq s s0 c0 rest recent hsd hrec⟩

lemma start_dateH_empty (s : Store) (start : Nat)
    (h : s.measurements.filter (fun m => decide (start ≤ m.date)) = []) :
    start_dateH s start = ⟨none, true⟩ := by
  unfold start_dateH
  rw [h]
  rfl

lemma start_dateH_nonempty (s : Store) (start : Nat)
    (h : s.measurements.filter (fun m => decide (start ≤ m.date)) ≠ []) :
    start_dateH s start =
      ⟨some ⟨aggMin ((s.measurements.filter
            (fun m => decide (start ≤ m.date))).map Measurement.tobs),
          pyRound2 (avgList ((s.measurements.filter
            (fun m => decide (start ≤ m.date))).map Measurement.tobs)),
          aggMax ((s.measurements.filter
            (fun m => decide (start ≤ m.date))).map Measurement.tobs),
          start⟩, true⟩ := by
  have hts : ((s.measurements.filter
      (fun m => decide (start ≤ m.date))).map Measurement.tobs).isEmpty = false := by
    rw [List.isEmpty_eq_false_iff_exists_mem]
    cases hc : s.measurements.filter (fun m => decide (start ≤ m.date)) with
    | nil => exact absurd hc h
    | cons m ms => exact ⟨m.tobs, by simp⟩
  simp [start_dateH, aggAvg, hts]

lemma start_end_dateH_empty (s : Store) (start e : Nat)
    (h : s.measurements.filter
      (fun m => decide (start ≤ m.date) && decide (m.date ≤ e)) = []) :
    start_end_dateH s start e = ⟨none, true⟩ := by
  unfold start_end_dateH
  rw [h]
  rfl

lemma start_end_dateH_nonempty (s : Store) (start e : Nat)
    (h : s.measurements.filter
      (fun m => decide (start ≤ m.date) && decide (m.date ≤ e)) ≠ []) :
    start_end_dateH s start e =
      ⟨some ⟨aggMin ((s.measurements.filter
            (fun m => decide (start ≤ m.date) && decide (m.date ≤ e))).map
            Measurement.tobs),
          pyRound2 (avgList ((s.measurements.filter
            (fun m => decide (start ≤ m.date) && decide (m.date ≤ e))).map
            Measurement.tobs)),
          aggMax ((s.measurements.filter
            (fun m => decide (start ≤ m.date) && decide (m.date ≤ e))).map
            Measurement.tobs),
          start, e⟩, true⟩ := by
  have hts : ((s.measurements.filter
      (fun m => decide (start ≤ m.date) && decide (m.date ≤ e))).map
      Measurement.tobs).isEmpty = false := by
    rw [List.isEmpty_eq_false_iff_exists_mem]
    cases hc : s.measurements.filter
        (fun m => decide (start ≤ m.date) && decide (m.date ≤ e)) with
    | nil => exact absurd hc h
    | cons m ms => exact ⟨m.tobs, by simp⟩
  simp [start_end_dateH, aggAvg, hts]

/-! ## Concrete stores used by witnesses and counterexamples -/

/-- A small populated store: station USC00519281 has three measurements,
USC00513117 has one. -/
def demoStore : Store :=
  ⟨["USC00519281", "USC00513117"],
   [⟨"USC00519281", 400, some 1, 70⟩, ⟨"USC00513117", 400, none, 80⟩,
    ⟨"USC00519281", 30, some 2, 60⟩, ⟨"USC00519281", 390, some 3, 75⟩]⟩

/-- The store with empty station and measurement tables. -/
def emptyStore : Store := ⟨[], []⟩

/-- A one-measurement store whose temperature has more than two decimal
places (tobs = 0.004). -/
def cexStore : Store := ⟨["S"], [⟨"S", 10, none, 1/250⟩]⟩

/-- A nonempty-list fact that several proofs below reuse: a filtered list
being nonempty survives mapping. -/
lemma map_tobs_ne_nil (l : List Measurement) (h : l ≠ []) :
    l.map Measurement.tobs ≠ [] := by
  intro hc
  exact h (List.map_eq_nil_iff.mp hc)

/-- MIN and MAX of a nonempty temperature list exist and bound its mean. -/
lemma minmax_avg_bound (ts : List ℚ) (h : ts ≠ []) :
    ∃ mn mx, aggMin ts = some mn ∧ aggMax ts = some mx ∧
      mn ≤ avgList ts ∧ avgList ts ≤ mx := by
  cases hmn : aggMin ts with
  | none => exact absurd ((aggMin_eq_none_iff ts).mp hmn) h
  | some mn =>
    cases hmx : aggMax ts with
    | none => exact absurd ((aggMax_eq_none_iff ts).mp hmx) h
    | some mx =>
      exact ⟨mn, mx, rfl, rfl, le_avgList ts mn h (aggMin_le ts mn hmn),
        avgList_le ts mx h (le_aggMax ts mx hmx)⟩

/-! ## Claim theorems -/

/-- C1: on any store with at least one measurement, the precipitation
endpoint succeeds and returns a dict whose keys are exactly the distinct
dates of measurements with date at least the store-wide maximum date minus
365 days, and whose value at each such date is the (possibly null)
precipitation of the last store-returned row for that date. -/
theorem precipitation_last_year_spec (s : Store) (h : s.measurements ≠ []) :
    ∃ recent result,
      maxDate s.measurements = some recent ∧
      (∀ m ∈ s.measurements, m.date ≤ recent) ∧
      (∃ m ∈ s.measurements, m.date = recent) ∧
      (precipitationH s).resp = some result ∧
      (∀ d : Nat, d ∈ result.map Prod.fst ↔
        ∃ m ∈ s.measurements,
          (recent : Int) - 365 ≤ (m.date : Int) ∧ m.date = d) ∧
      (∀ d : Nat, List.lookup d result =
        ((s.measurements.filter
            (fun m => decide ((recent : Int) - 365 ≤ (m.date : Int)))).reverse.find?
            (fun m => m.date == d)).map Measurement.prcp) := by
  obtain ⟨recent, hrec⟩ := maxDate_isSome _ h
  refine ⟨recent,
    dictOf ((s.measurements.filter
      (fun m => decide ((recent : Int) - 365 ≤ (m.date : Int)))).map
      (fun m => (m.date, m.prcp))),
    hrec, maxDate_le _ _ hrec, maxDate_mem _ _ hrec, ?_, ?_, ?_⟩
  · rw [precipitationH_eq s recent hrec]
  · intro d
    rw [keys_dictOf]
    simp only [List.map_map, List.mem_map, List.mem_filter, Function.comp,
      decide_eq_true_iff]
    constructor
    · rintro ⟨m, ⟨hm, hd⟩, rfl⟩
      exact ⟨m, hm, hd, rfl⟩
    · rintro ⟨m, hm, hd, rfl⟩
      exact ⟨m, ⟨hm, hd⟩, rfl⟩
  · intro d
    rw [lookup_dictOf, ← List.map_reverse, List.find?_map, Option.map_map]
    rfl

/-- C1 witness: the theorem applied to `demoStore`. -/
theorem precipitation_last_year_spec_witness :
    demoStore.measurements ≠ [] ∧ (precipitationH demoStore).resp.isSome := by
  refine ⟨by decide, ?_⟩
  obtain ⟨recent, result, -, -, -, hresp, -, -⟩ :=
    precipitation_last_year_spec demoStore (by decide)
  rw [hresp]
  rfl

/-- C2: on any store with at least one measurement, the tobs endpoint
selects the head of the descending-count station list (which has the
maximal observation count over all stations), and returns one
(date, temperature) pair per measurement of that station with date at
least that station's own maximum date minus 365 days, in store order. -/
theorem tobs_most_active_spec (s : Store) (h : s.measurements ≠ []) :
    ∃ s0 c0 rest recent,
      sortDesc (groupCounts s.measurements) = (s0, c0) :: rest ∧
      mostActiveStation s = some s0 ∧
      c0 = (s.measurements.filter (fun m => m.station == s0)).length ∧
      (∀ st : String,
        (s.measurements.filter (fun m => m.station == st)).length ≤ c0) ∧
      maxDate (s.measurements.filter (fun m => m.station == s0)) =
        some recent ∧
      (tobsH s).resp = some ((s.measurements.filter
          (fun m => m.station == s0 &&
            decide ((recent : Int) - 365 ≤ (m.date : Int)))).map
          (fun m => (m.date, m.tobs))) := by
  obtain ⟨s0, c0, rest, recent, hsd, hc0, hmax, hrec, heq⟩ := tobsH_spec s h
  exact ⟨s0, c0, rest, recent, hsd, by simp [mostActiveStation, hsd], hc0,
    hmax, hrec, by rw [heq]⟩

/-- C2 witness: the theorem applied to `demoStore`. -/
theorem tobs_most_active_spec_witness :
    demoStore.measurements ≠ [] ∧ (tobsH demoStore).resp.isSome := by
  refine ⟨by decide, ?_⟩
  obtain ⟨s0, c0, rest, recent, -, -, -, -, -, hresp⟩ :=
    tobs_most_active_spec demoStore (by decide)
  rw [hresp]
  rfl

/-- C3 counterexample: on a store whose single matching temperature is
0.004, the start summary returns min = max = 0.004 but avg rounded to two
decimals is 0, and 1/250 ≤ 0 is false — the returned object violates
min ≤ avg. -/
theorem summary_minavgmax_cex :
    (start_dateH cexStore 0).resp =
      some ⟨some (1/250), 0, some (1/250), 0⟩ ∧
    ¬ ((1 : ℚ)/250 ≤ (0 : ℚ)) := by
  have hfil : cexStore.measurements.filter
      (fun m => decide ((0 : Nat) ≤ m.date)) = [⟨"S", 10, none, 1/250⟩] := rfl
  have hround : pyRound2 ((1 : ℚ)/250) = 0 := by
    have h100 : ((1 : ℚ)/250) * 100 = 2/5 := by norm_num
    have hfl : ⌊((2 : ℚ)/5)⌋ = 0 := by
      rw [Int.floor_eq_iff]
      norm_num
    have hr : roundHalfEven ((2 : ℚ)/5) = 0 := by
      unfold roundHalfEven
      rw [hfl]
      norm_num
    simp only [pyRound2, h100, hr]
    norm_num
  constructor
  · rw [start_dateH_nonempty cexStore 0 (by rw [hfil]; simp)]
    rw [hfil]
    simp only [List.map_cons, List.map_nil]
    have hmin : aggMin [(1 : ℚ)/250] = some (1/250) := rfl
    have hmax : aggMax [(1 : ℚ)/250] = some (1/250) := rfl
    have havg : avgList [(1 : ℚ)/250] = 1/250 := by
      simp [avgList]
    rw [hmin, hmax, havg, hround]
  · norm_num

/-- C3 amended: whenever the date filter matches at least one measurement,
the summary endpoints return an object whose avg field is the true average
rounded to exactly two decimal places, and the true (unrounded) average
lies between the returned min and max; the returned (rounded) avg itself
can fall slightly outside that interval. -/
theorem summary_avg_bounds (s : Store) (start e : Nat)
    (h1 : s.measurements.filter (fun m => decide (start ≤ m.date)) ≠ [])
    (h2 : s.measurements.filter
      (fun m => decide (start ≤ m.date) && decide (m.date ≤ e)) ≠ []) :
    (∃ r mn mx,
      (start_dateH s start).resp = some r ∧
      r.min = some mn ∧ r.max = some mx ∧
      mn ≤ avgList ((s.measurements.filter
        (fun m => decide (start ≤ m.date))).map Measurement.tobs) ∧
      avgList ((s.measurements.filter
        (fun m => decide (start ≤ m.date))).map Measurement.tobs) ≤ mx ∧
      r.avg = pyRound2 (avgList ((s.measurements.filter
        (fun m => decide (start ≤ m.date))).map Measurement.tobs))) ∧
    (∃ r mn mx,
      (start_end_dateH s start e).resp = some r ∧
      r.min = some mn ∧ r.max = some mx ∧
      mn ≤ avgList ((s.measurements.filter
        (fun m => decide (start ≤ m.date) && decide (m.date ≤ e))).map
        Measurement.tobs) ∧
      avgList ((s.measurements.filter
        (fun m => decide (start ≤ m.date) && decide (m.date ≤ e))).map
        Measurement.tobs) ≤ mx ∧
      r.avg = pyRound2 (avgList ((s.measurements.filter
        (fun m => decide (start ≤ m.date) && decide (m.date ≤ e))).map
        Measurement.tobs))) := by
  constructor
  · obtain ⟨mn, mx, hmn, hmx, hlo, hhi⟩ :=
      minmax_avg_bound _ (map_tobs_ne_nil _ h1)
    rw [start_dateH_nonempty s start h1]
    exact ⟨_, mn, mx, rfl, hmn, hmx, hlo, hhi, rfl⟩
  · obtain ⟨mn, mx, hmn, hmx, hlo, hhi⟩ :=
      minmax_avg_bound _ (map_tobs_ne_nil _ h2)
    rw [start_end_dateH_nonempty s start e h2]
    exact ⟨_, mn, mx, rfl, hmn, hmx, hlo, hhi, rfl⟩

/-- C3 witness: the amended theorem applied to `demoStore` with start 30
and end 395. -/
theorem summary_avg_bounds_witness :
    (start_dateH demoStore 30).resp.isSome ∧
    (start_end_dateH demoStore 30 395).resp.isSome := by
  obtain ⟨⟨r1, -, -, h1, -⟩, ⟨r2, -, -, h2, -⟩⟩ :=
    summary_avg_bounds demoStore 30 395 (by decide) (by decide)
  rw [h1, h2]
  exact ⟨rfl, rfl⟩

/-- C4 counterexample: a start (and start/end) request matching no
measurement does not produce a null-valued normal response: the handler
fails (rounding the null average raises) and no response body exists. -/
theorem empty_summary_cex :
    cexStore.measurements.filter (fun m => decide ((20 : Nat) ≤ m.date)) = [] ∧
    (start_dateH cexStore 20).resp = none ∧
    (start_end_dateH cexStore 20 30).resp = none := by
  decide

/-- C4 amended: when the date filter matches no measurement, the summary
handlers raise while rounding the null average (after having closed the
session), so no response is produced instead of a null-valued normal one. -/
theorem empty_summary_raises (s : Store) (start e : Nat)
    (h1 : s.measurements.filter (fun m => decide (start ≤ m.date)) = [])
    (h2 : s.measurements.filter
      (fun m => decide (start ≤ m.date) && decide (m.date ≤ e)) = []) :
    (start_dateH s start).resp = none ∧
    (start_dateH s start).sessionClosed = true ∧
    (start_end_dateH s start e).resp = none ∧
    (start_end_dateH s start e).sessionClosed = true := by
  rw [start_dateH_empty s start h1, start_end_dateH_empty s start e h2]
  exact ⟨rfl, rfl, rfl, rfl⟩

/-- C4 witness: the amended theorem applied to `cexStore` with start 20
and end 30, whose filters match nothing. -/
theorem empty_summary_raises_witness :
    (start_dateH cexStore 20).resp = none ∧
    (start_end_dateH cexStore 20 30).resp = none := by
  obtain ⟨a, -, c, -⟩ :=
    empty_summary_raises cexStore 20 30 (by decide) (by decide)
  exact ⟨a, c⟩

/-- C5: the stations endpoint returns the station codes in store order;
since station codes identify stations (no duplicates in the station
table), its length is the number of distinct stations in the store. -/
theorem stations_count_spec (s : Store) (h : s.stations.Nodup) :
    ∃ l, (all_stationsH s).resp = some l ∧ l = s.stations ∧
      l.length = s.stations.dedup.length := by
  exact ⟨s.stations, rfl, rfl, by rw [List.dedup_eq_self.mpr h]⟩

/-- C5 witness: the theorem applied to `demoStore`. -/
theorem stations_count_spec_witness :
    ∃ l, (all_stationsH demoStore).resp = some l ∧ l = demoStore.stations ∧
      l.length = demoStore.stations.dedup.length :=
  stations_count_spec demoStore (by decide)

/-- C6: the start/end summary aggregates exactly over the measurements with
start ≤ date ≤ end (both bounds inclusive), and on a nonempty match its
output object carries the end value in addition to min, avg, max and
start. -/
theorem start_end_inclusive_spec (s : Store) (start e : Nat) :
    (∀ m : Measurement,
      m ∈ s.measurements.filter
        (fun m => decide (start ≤ m.date) && decide (m.date ≤ e)) ↔
      m ∈ s.measurements ∧ start ≤ m.date ∧ m.date ≤ e) ∧
    (s.measurements.filter
        (fun m => decide (start ≤ m.date) && decide (m.date ≤ e)) ≠ [] →
      (start_end_dateH s start e).resp =
        some ⟨aggMin ((s.measurements.filter
            (fun m => decide (start ≤ m.date) && decide (m.date ≤ e))).map
            Measurement.tobs),
          pyRound2 (avgList ((s.measurements.filter
            (fun m => decide (start ≤ m.date) && decide (m.date ≤ e))).map
            Measurement.tobs)),
          aggMax ((s.measurements.filter
            (fun m => decide (start ≤ m.date) && decide (m.date ≤ e))).map
            Measurement.tobs),
          start, e⟩) := by
  constructor
  · intro m
    simp [List.mem_filter]
  · intro h
    rw [start_end_dateH_nonempty s start e h]

/-- C6 witness: the theorem applied to `demoStore` with start 30 and
end 395. -/
theorem start_end_inclusive_spec_witness :
    (start_end_dateH demoStore 30 395).resp.isSome := by
  obtain ⟨-, h2⟩ := start_end_inclusive_spec demoStore 30 395
  rw [h2 (by decide)]
  rfl

/-- C7 counterexample: on the empty store the precipitation handler exits
on the date-parse error path without having run `session.close()` — the
session is not released on every exit path. -/
theorem session_release_cex :
    (precipitationH emptyStore).resp = none ∧
    (precipitationH emptyStore).sessionClosed = false :=
  ⟨rfl, rfl⟩

/-- C7 amended: the session is released before the response on every
successful path, and the two summary handlers release it on all their
paths (their failure happens after the close); but precipitation and tobs
do not release the session on their error paths — there, release happens
exactly when a response is produced. -/
theorem session_release_spec (s : Store) (start e : Nat) :
    (precipitationH s).sessionClosed = (precipitationH s).resp.isSome ∧
    (tobsH s).sessionClosed = (tobsH s).resp.isSome ∧
    (all_stationsH s).sessionClosed = true ∧
    (start_dateH s start).sessionClosed = true ∧
    (start_end_dateH s start e).sessionClosed = true := by
  refine ⟨?_, ?_, rfl, ?_, ?_⟩
  · cases hm : maxDate s.measurements with
    | none =>
      unfold precipitationH
      rw [hm]
      rfl
    | some recent =>
      rw [precipitationH_eq s recent hm]
      rfl
  · by_cases h : s.measurements = []
    · unfold tobsH
      rw [(groupCounts_eq_nil_iff s.measurements).mpr h]
      rfl
    · obtain ⟨s0, c0, rest, recent, -, -, -, -, heq⟩ := tobsH_spec s h
      rw [heq]
      rfl
  · by_cases h : s.measurements.filter (fun m => decide (start ≤ m.date)) = []
    · rw [start_dateH_empty s start h]
    · rw [start_dateH_nonempty s start h]
  · by_cases h : s.measurements.filter
        (fun m => decide (start ≤ m.date) && decide (m.date ≤ e)) = []
    · rw [start_end_dateH_empty s start e h]
    · rw [start_end_dateH_nonempty s start e h]

/-- C8: every endpoint is a deterministic function of the store snapshot
and its path parameters: equal snapshots give identical responses, and in
particular the tobs endpoint picks the same most-active station. -/
theorem endpoint_determinism (s t : Store) (h : s = t) :
    precipitationH s = precipitationH t ∧
    all_stationsH s = all_stationsH t ∧
    tobsH s = tobsH t ∧
    mostActiveStation s = mostActiveStation t ∧
    (∀ start : Nat, start_dateH s start = start_dateH t start) ∧
    (∀ start e : Nat, start_end_dateH s start e = start_end_dateH t start e) := by
  subst h
  exact ⟨rfl, rfl, rfl, rfl, fun _ => rfl, fun _ _ => rfl⟩

/-- C8 witness: the theorem applied to two equal copies of `demoStore`. -/
theorem endpoint_determinism_witness :
    tobsH demoStore = tobsH demoStore ∧
    mostActiveStation demoStore = mostActiveStation demoStore := by
  obtain ⟨-, -, h3, h4, -, -⟩ := endpoint_determinism demoStore demoStore rfl
  exact ⟨h3, h4⟩

/-- C9: the root route is a constant function: it returns the static route
listing verbatim, independent of the store, and leaves the store (its only
observable state) unchanged. -/
theorem homepage_static_spec (s t : Store) :
    homepageH s = (homepageHtml, s) ∧
    (homepageH s).1 = (homepageH t).1 ∧
    (homepageH s).2 = s :=
  ⟨rfl, rfl, rfl⟩

/-- C10: with an empty measurement table, precipitation dies parsing the
null maximum date and tobs dies indexing the empty grouped-count list —
neither produces a response (and neither reaches `session.close()`); with
at least one measurement, both the first-element selection and the date
parse are well-defined and both handlers produce a response. -/
theorem nonempty_precondition_spec (s : Store) :
    (s.measurements = [] →
      precipitationH s = ⟨none, false⟩ ∧ tobsH s = ⟨none, false⟩) ∧
    (s.measurements ≠ [] →
      (precipitationH s).resp.isSome ∧ (tobsH s).resp.isSome) := by
  constructor
  · intro h
    constructor
    · unfold precipitationH
      rw [h]
      rfl
    · unfold tobsH
      rw [(groupCounts_eq_nil_iff s.measurements).mpr h]
      rfl
  · intro h
    constructor
    · obtain ⟨recent, hrec⟩ := maxDate_isSome _ h
      rw [precipitationH_eq s recent hrec]
      rfl
    · obtain ⟨s0, c0, rest, recent, -, -, -, -, heq⟩ := tobsH_spec s h
      rw [heq]
      rfl

/-- C10 witness: the theorem applied to `emptyStore` (both handlers fail,
session unreleased) and to `demoStore` (both succeed). -/
theorem nonempty_precondition_spec_witness :
    (precipitationH emptyStore = ⟨none, false⟩ ∧
      tobsH emptyStore = ⟨none, false⟩) ∧
    ((precipitationH demoStore).resp.isSome ∧
      (tobsH demoStore).resp.isSome) :=
  ⟨(nonempty_precondition_spec emptyStore).1 rfl,
   (nonempty_precondition_spec demoStore).2 (by decide)⟩
